import Mathlib

/-!
Verification of the egg-loader bootstrap coordination core.

The development shallowly embeds the two source files:

* the loader mixin (`loadCustomApp` / `loadCustomAgent`), which iterates
  `getLoadUnits()` in order and calls `loadFile(path.join(unit.path, 'app.js'))`
  (resp. `'agent.js'`) for each unit; and
* `lib/egg.js`, the `EggApplication` class: constructor-time option
  validation, the `_initReady` readiness wiring, and the process-wide
  `unhandledRejection` handler.

The readiness barrier provided by the external `ready-callback` package is
not part of the sources; where claims depend on its behaviour it is
modelled from the specification (each such definition says so in its doc
comment).
-/

namespace EggLoader

/-- A load unit as resolved by the external unit resolver: `{ path: string }`. -/
structure LoadUnit where
  path : String
deriving Repr, DecidableEq

/-- Embedding of Node's `path.join(a, b)` as used by the loader: the unit
path joined with a well-known hook filename.  The sources only ever join a
directory with a plain filename, for which `path.join` is separator
concatenation. -/
def pathJoin (a b : String) : String := a ++ "/" ++ b

/-- The loader object the mixin methods are attached to: `getLoadUnits()`
returns the resolver's ordered unit sequence, and `loadFile` loads and runs
one hook file, either returning normally or raising (`Except.error`).
Both come from outside the two source files, so they are parameters. -/
structure Loader (ε α : Type) where
  getLoadUnits : List LoadUnit
  loadFile : String → Except ε α

/-- JS `Array.prototype.forEach` over the unit list with a callback that may
throw: each callback runs in list order, and a thrown exception aborts the
iteration and propagates.  Returns the ordered trace of files actually
passed to `loadFile` together with the propagated exception, if any. -/
def forEachLoadFile (loadFile : String → Except ε α) (hook : String) :
    List LoadUnit → List String × Option ε
  | [] => ([], none)
  | u :: us =>
    let f := pathJoin u.path hook
    match loadFile f with
    | Except.ok _ =>
      let r := forEachLoadFile loadFile hook us
      (f :: r.1, r.2)
    | Except.error e => ([f], some e)

/-- `loadCustomApp()`:
`this.getLoadUnits().forEach(unit => this.loadFile(path.join(unit.path, 'app.js')))`. -/
def loadCustomApp (L : Loader ε α) : List String × Option ε :=
  forEachLoadFile L.loadFile "app.js" L.getLoadUnits

/-- `loadCustomAgent()`:
`this.getLoadUnits().forEach(unit => this.loadFile(path.join(unit.path, 'agent.js')))`. -/
def loadCustomAgent (L : Loader ε α) : List String × Option ε :=
  forEachLoadFile L.loadFile "agent.js" L.getLoadUnits

/-- The generic "load the well-known hook of each unit" operation the spec
describes: one operation parametrised by the hook filename for the context
kind.  Used to state that the two load operations are identical up to the
resolved filename. -/
def loadCustomKind (hook : String) (L : Loader ε α) : List String × Option ε :=
  forEachLoadFile L.loadFile hook L.getLoadUnits

theorem forEachLoadFile_all_ok (loadFile : String → Except ε α) (hook : String)
    (us : List LoadUnit)
    (h : ∀ u ∈ us, (loadFile (pathJoin u.path hook)).isOk) :
    forEachLoadFile loadFile hook us =
      (us.map (fun u => pathJoin u.path hook), none) := by
  induction us with
  | nil => rfl
  | cons u us ih =>
    have hu : (loadFile (pathJoin u.path hook)).isOk :=
      h u (List.mem_cons_self u us)
    have hrest : ∀ v ∈ us, (loadFile (pathJoin v.path hook)).isOk :=
      fun v hv => h v (List.mem_cons_of_mem u hv)
    simp only [forEachLoadFile]
    cases hlf : loadFile (pathJoin u.path hook) with
    | ok a => simp [ih hrest]
    | error e => rw [hlf] at hu; simp [Except.isOk, Except.toBool] at hu

theorem forEachLoadFile_abort (loadFile : String → Except ε α) (hook : String)
    (pre post : List LoadUnit) (uk : LoadUnit) (e : ε)
    (hpre : ∀ u ∈ pre, (loadFile (pathJoin u.path hook)).isOk)
    (hk : loadFile (pathJoin uk.path hook) = Except.error e) :
    forEachLoadFile loadFile hook (pre ++ uk :: post) =
      (pre.map (fun u => pathJoin u.path hook) ++ [pathJoin uk.path hook], some e) := by
  induction pre with
  | nil => simp [forEachLoadFile, hk]
  | cons u pre ih =>
    have hu : (loadFile (pathJoin u.path hook)).isOk :=
      hpre u (List.mem_cons_self u pre)
    have hrest : ∀ v ∈ pre, (loadFile (pathJoin v.path hook)).isOk :=
      fun v hv => hpre v (List.mem_cons_of_mem u hv)
    simp only [List.cons_append, forEachLoadFile]
    cases hlf : loadFile (pathJoin u.path hook) with
    | ok a => simp [ih hrest]
    | error e' => rw [hlf] at hu; simp [Except.isOk, Except.toBool] at hu

/-- C1: when no hook raises, `loadCustomApp` and `loadCustomAgent` invoke
the hook of every resolved unit in exactly the order returned by
`getLoadUnits()`, with no reordering: the invocation trace equals the
unit sequence mapped to its hook files, and no failure is reported.
Sequencing is by structural recursion over the unit list, so invocation
`i+1` occurs only after invocation `i` has returned. -/
theorem loadCustom_invokes_in_unit_order (L : Loader ε α)
    (happ : ∀ u ∈ L.getLoadUnits, (L.loadFile (pathJoin u.path "app.js")).isOk)
    (hagent : ∀ u ∈ L.getLoadUnits, (L.loadFile (pathJoin u.path "agent.js")).isOk) :
    loadCustomApp L =
      (L.getLoadUnits.map (fun u => pathJoin u.path "app.js"), none) ∧
    loadCustomAgent L =
      (L.getLoadUnits.map (fun u => pathJoin u.path "agent.js"), none) :=
  ⟨forEachLoadFile_all_ok L.loadFile "app.js" L.getLoadUnits happ,
   forEachLoadFile_all_ok L.loadFile "agent.js" L.getLoadUnits hagent⟩

/-- Concrete run of `loadCustom_invokes_in_unit_order`: three units whose
hooks all succeed are invoked in exactly resolver order. -/
theorem loadCustom_invokes_in_unit_order_witness :
    loadCustomApp
        (Loader.mk [⟨"a"⟩, ⟨"b"⟩, ⟨"c"⟩] (fun _ => (Except.ok 0 : Except String Nat))) =
      (["a/app.js", "b/app.js", "c/app.js"], none) ∧
    loadCustomAgent
        (Loader.mk [⟨"a"⟩, ⟨"b"⟩, ⟨"c"⟩] (fun _ => (Except.ok 0 : Except String Nat))) =
      (["a/agent.js", "b/agent.js", "c/agent.js"], none) :=
  loadCustom_invokes_in_unit_order
    (Loader.mk [⟨"a"⟩, ⟨"b"⟩, ⟨"c"⟩] (fun _ => (Except.ok 0 : Except String Nat)))
    (by intro u _; rfl) (by intro u _; rfl)

/-- C2: if the hook of unit `k` raises synchronously while every earlier
hook returned normally, then no hook of any later unit is invoked — the
invocation trace stops at unit `k`'s hook file — and the failure
propagates to the caller of the load operation.  Stated for both
`loadCustomApp` and `loadCustomAgent`. -/
theorem loadCustom_fail_fast (Lapp Lagent : Loader ε α)
    (pre post : List LoadUnit) (uk : LoadUnit) (e e' : ε)
    (hua : Lapp.getLoadUnits = pre ++ uk :: post)
    (hug : Lagent.getLoadUnits = pre ++ uk :: post)
    (hpre : ∀ u ∈ pre, (Lapp.loadFile (pathJoin u.path "app.js")).isOk)
    (hk : Lapp.loadFile (pathJoin uk.path "app.js") = Except.error e)
    (hpre' : ∀ u ∈ pre, (Lagent.loadFile (pathJoin u.path "agent.js")).isOk)
    (hk' : Lagent.loadFile (pathJoin uk.path "agent.js") = Except.error e') :
    loadCustomApp Lapp =
      (pre.map (fun u => pathJoin u.path "app.js") ++ [pathJoin uk.path "app.js"],
        some e) ∧
    loadCustomAgent Lagent =
      (pre.map (fun u => pathJoin u.path "agent.js") ++ [pathJoin uk.path "agent.js"],
        some e') := by
  constructor
  · show forEachLoadFile Lapp.loadFile "app.js" Lapp.getLoadUnits = _
    rw [hua]
    exact forEachLoadFile_abort Lapp.loadFile "app.js" pre post uk e hpre hk
  · show forEachLoadFile Lagent.loadFile "agent.js" Lagent.getLoadUnits = _
    rw [hug]
    exact forEachLoadFile_abort Lagent.loadFile "agent.js" pre post uk e' hpre' hk'

/-- Concrete run of `loadCustom_fail_fast`: with three units where unit 2's
hook raises, unit 3's hook is never invoked and the error propagates. -/
theorem loadCustom_fail_fast_witness :
    loadCustomApp
        (Loader.mk [⟨"u1"⟩, ⟨"u2"⟩, ⟨"u3"⟩]
          (fun f => if f = "u2/app.js" then Except.error "boom" else Except.ok 0)) =
      (["u1/app.js", "u2/app.js"], some "boom") ∧
    loadCustomAgent
        (Loader.mk [⟨"u1"⟩, ⟨"u2"⟩, ⟨"u3"⟩]
          (fun f => if f = "u2/agent.js" then Except.error "boom" else Except.ok 0)) =
      (["u1/agent.js", "u2/agent.js"], some "boom") :=
  loadCustom_fail_fast
    (Loader.mk [⟨"u1"⟩, ⟨"u2"⟩, ⟨"u3"⟩]
      (fun f => if f = "u2/app.js" then Except.error "boom" else Except.ok 0))
    (Loader.mk [⟨"u1"⟩, ⟨"u2"⟩, ⟨"u3"⟩]
      (fun f => if f = "u2/agent.js" then Except.error "boom" else Except.ok 0))
    [⟨"u1"⟩] [⟨"u3"⟩] ⟨"u2"⟩ "boom" "boom" rfl rfl
    (by intro u hu; simp at hu; subst hu; rfl) rfl
    (by intro u hu; simp at hu; subst hu; rfl) rfl

theorem forEachLoadFile_trace_take (loadFile : String → Except ε α) (hook : String) :
    ∀ us : List LoadUnit, ∃ k : Nat,
      (forEachLoadFile loadFile hook us).1 =
        (us.take k).map (fun u => pathJoin u.path hook) := by
  intro us
  induction us with
  | nil => exact ⟨0, rfl⟩
  | cons u us ih =>
    cases hlf : loadFile (pathJoin u.path hook) with
    | ok a =>
      obtain ⟨k, hk⟩ := ih
      exact ⟨k + 1, by simp [forEachLoadFile, hlf, hk]⟩
    | error e => exact ⟨1, by simp [forEachLoadFile, hlf]⟩

theorem forEachLoadFile_trace_get (loadFile : String → Except ε α) (hook : String)
    (us : List LoadUnit) (n : Nat)
    (h : n < (forEachLoadFile loadFile hook us).1.length) :
    ∃ h2 : n < us.length,
      (forEachLoadFile loadFile hook us).1.get ⟨n, h⟩ =
        pathJoin (us.get ⟨n, h2⟩).path hook := by
  obtain ⟨k, hk⟩ := forEachLoadFile_trace_take loadFile hook us
  have hlen : n < (us.take k).length := by
    have h' := h
    rw [hk] at h'
    simpa using h'
  have h2 : n < us.length := lt_of_lt_of_le hlen (List.length_take_le' k us)
  refine ⟨h2, ?_⟩
  rw [List.get_of_eq hk ⟨n, h⟩]
  simp [List.get_eq_getElem]

/-- C9: each context kind resolves exactly one well-known hook filename
under each unit's path — the invoked file at position `n` of either trace
is `path.join(unit.path, 'app.js')` for the app kind and
`path.join(unit.path, 'agent.js')` for the agent kind, where `unit` is the
`n`-th resolved unit — and apart from that filename the two load
operations are the same operation: both equal the generic per-kind loader
at their respective filename. -/
theorem loadCustom_hook_filenames (L : Loader ε α) :
    loadCustomApp L = loadCustomKind "app.js" L ∧
    loadCustomAgent L = loadCustomKind "agent.js" L ∧
    (∀ (n : Nat) (h : n < (loadCustomApp L).1.length),
      ∃ h2 : n < L.getLoadUnits.length,
        (loadCustomApp L).1.get ⟨n, h⟩ =
          pathJoin (L.getLoadUnits.get ⟨n, h2⟩).path "app.js") ∧
    (∀ (n : Nat) (h : n < (loadCustomAgent L).1.length),
      ∃ h2 : n < L.getLoadUnits.length,
        (loadCustomAgent L).1.get ⟨n, h⟩ =
          pathJoin (L.getLoadUnits.get ⟨n, h2⟩).path "agent.js") :=
  ⟨rfl, rfl,
   fun n h => forEachLoadFile_trace_get L.loadFile "app.js" L.getLoadUnits n h,
   fun n h => forEachLoadFile_trace_get L.loadFile "agent.js" L.getLoadUnits n h⟩

/-- Concrete run of `loadCustom_hook_filenames`: on a two-unit loader the
first invoked app hook is `p/app.js` and the first agent hook is
`p/agent.js`. -/
theorem loadCustom_hook_filenames_witness :
    (loadCustomApp
        (Loader.mk [⟨"p"⟩, ⟨"q"⟩] (fun _ => (Except.ok 0 : Except String Nat)))).1.get
        ⟨0, by decide⟩ = "p/app.js" ∧
    (loadCustomAgent
        (Loader.mk [⟨"p"⟩, ⟨"q"⟩] (fun _ => (Except.ok 0 : Except String Nat)))).1.get
        ⟨0, by decide⟩ = "p/agent.js" := by
  have h := loadCustom_hook_filenames
    (Loader.mk [⟨"p"⟩, ⟨"q"⟩] (fun _ => (Except.ok 0 : Except String Nat)))
  obtain ⟨-, -, happ, hagent⟩ := h
  obtain ⟨h2, he⟩ := happ 0 (by decide)
  obtain ⟨h2', he'⟩ := hagent 0 (by decide)
  exact ⟨he, he'⟩

/-! ## Readiness barrier

`_initReady()` wires the instance to the barrier of the external
`ready-callback` package, which is not among the sources; the barrier
itself is therefore modelled from the specification (§3, §4.2), while the
construction parameters (`{ timeout: 10000 }`) and the event subscriptions
come from `lib/egg.js`. -/

/-- A pending asynchronous task (spec §3):
`{ id: string, registeredAt: timestamp, timedOut: bool }`. -/
structure Task where
  id : String
  registeredAt : Nat
  timedOut : Bool
deriving Repr, DecidableEq

/-- Modelled from the spec: the one-shot timeout watchdog `register` starts
for each task (spec §4.2), with the barrier's configured delay. -/
structure Watchdog where
  taskId : String
  delay : Nat
  oneShot : Bool
deriving Repr, DecidableEq

/-- Modelled from the spec: the readiness-barrier state of the external
`ready-callback` package (spec §4.2) — configured watchdog delay, pending
tasks in registration order, whether the loader has finished all units,
and a once-only latch for the terminal `ready` emission ("emits `ready`
exactly once for the lifetime of the barrier").  `nextGenId` generates the
ids of anonymous registrations; `clock` is the logical registration
timestamp. -/
structure Barrier where
  timeout : Nat
  pending : List Task
  loaderDone : Bool
  readyFired : Bool
  nextGenId : Nat
  clock : Nat
deriving Repr, DecidableEq

/-- Events the barrier emits (spec §4.2): `task_done` with the completed id
and the snapshot of remaining ids, advisory `timeout`, and the terminal
`ready`. -/
inductive BarrierEvent where
  | taskDone (id : String) (remain : List String)
  | timedOut (id : String)
  | ready
deriving Repr, DecidableEq

/-- Failure of `register` with an id that is already pending (spec §7:
DuplicateRegistration, fatal to the calling hook). -/
inductive RegisterError where
  | duplicateRegistration (id : String)
deriving Repr, DecidableEq

/-- Modelled from the spec: `register(id?) -> Token` (spec §4.2).  A given
id that is already pending fails with DuplicateRegistration; an omitted id
is generated unique for the life of the barrier.  The task is stored and a
one-shot watchdog of the configured delay is started. -/
def Barrier.register (b : Barrier) (given : Option String) :
    Except RegisterError (Barrier × String × Watchdog) :=
  let id := match given with
    | some i => i
    | none => "anonymous-task-" ++ toString b.nextGenId
  if b.pending.any (fun t => t.id = id) then
    Except.error (RegisterError.duplicateRegistration id)
  else
    Except.ok
      ({ b with
          pending := b.pending ++ [⟨id, b.clock, false⟩],
          nextGenId := b.nextGenId + 1,
          clock := b.clock + 1 },
        id, ⟨id, b.timeout, true⟩)

/-- The ids still pending, in registration order (spec §4.2's deterministic
snapshot). -/
def Barrier.remainingIds (b : Barrier) : List String :=
  b.pending.map Task.id

/-- Modelled from the spec: `complete(token)` (spec §4.2).  Removes the
bound task if present (idempotent: a silent no-op otherwise), emits
`task_done` with the remaining ids, and — if the pending set has emptied
and the loader has finished and `ready` has not fired yet — emits `ready`
and latches. -/
def Barrier.complete (b : Barrier) (id : String) : Barrier × List BarrierEvent :=
  if b.pending.any (fun t => t.id = id) then
    let pending' := b.pending.filter (fun t => !(t.id = id))
    let doneEv := BarrierEvent.taskDone id (pending'.map Task.id)
    if pending'.isEmpty && b.loaderDone && !b.readyFired then
      ({ b with pending := pending', readyFired := true },
        [doneEv, BarrierEvent.ready])
    else
      ({ b with pending := pending' }, [doneEv])
  else (b, [])

/-- Modelled from the spec: the watchdog firing for a task not yet
completed (spec §4.2) — emits `timeout` once, marks the task, leaves it
pending (advisory, not a failure). -/
def Barrier.fireTimeout (b : Barrier) (id : String) : Barrier × List BarrierEvent :=
  if b.pending.any (fun t => t.id = id && !t.timedOut) then
    ({ b with pending :=
        b.pending.map (fun t => if t.id = id then { t with timedOut := true } else t) },
      [BarrierEvent.timedOut id])
  else (b, [])

/-- Modelled from the spec: the loader finishing all units (spec §4.3) —
if the pending set is already empty at that instant and `ready` has not
fired, `ready` is emitted directly. -/
def Barrier.loaderFinished (b : Barrier) : Barrier × List BarrierEvent :=
  if b.pending.isEmpty && !b.readyFired then
    ({ b with loaderDone := true, readyFired := true }, [BarrierEvent.ready])
  else
    ({ b with loaderDone := true }, [])

/-- One interaction with the barrier: a registration (with or without an
explicit id), a completion, a watchdog firing, or the loader finishing. -/
inductive BarrierAction where
  | register (given : Option String)
  | complete (id : String)
  | fireTimeout (id : String)
  | loaderFinish
deriving Repr, DecidableEq

/-- One step of the barrier under an action.  A failed registration raises
to the calling hook and leaves the barrier state untouched with no events
(spec §7: "surfaced synchronously, does not corrupt barrier state"). -/
def Barrier.step (b : Barrier) : BarrierAction → Barrier × List BarrierEvent
  | BarrierAction.register given =>
    match b.register given with
    | Except.ok (b', _, _) => (b', [])
    | Except.error _ => (b, [])
  | BarrierAction.complete id => b.complete id
  | BarrierAction.fireTimeout id => b.fireTimeout id
  | BarrierAction.loaderFinish => b.loaderFinished

/-- Run of the barrier over a whole interleaving of actions, collecting the
emitted events in order. -/
def Barrier.run (b : Barrier) : List BarrierAction → Barrier × List BarrierEvent
  | [] => (b, [])
  | a :: as =>
    let r := b.step a
    let r' := r.1.run as
    (r'.1, r.2 ++ r'.2)

/-- The watchdog delay `_initReady` configures:
`require('ready-callback')({ timeout: 10000 })` (egg.js line 177). -/
def initReadyTimeout : Nat := 10000

/-- A fresh barrier with the given configured watchdog delay. -/
def mkBarrier (timeout : Nat) : Barrier :=
  { timeout := timeout, pending := [], loaderDone := false, readyFired := false,
    nextGenId := 0, clock := 0 }

/-- The barrier `_initReady` mixes into every `EggApplication` instance. -/
def initReadyBarrier : Barrier := mkBarrier initReadyTimeout

/-- Number of `ready` emissions in an event list. -/
def countReady : List BarrierEvent → Nat
  | [] => 0
  | BarrierEvent.ready :: es => countReady es + 1
  | BarrierEvent.taskDone _ _ :: es => countReady es
  | BarrierEvent.timedOut _ :: es => countReady es

theorem countReady_append (es es' : List BarrierEvent) :
    countReady (es ++ es') = countReady es + countReady es' := by
  induction es with
  | nil => simp [countReady]
  | cons e es ih =>
    cases e <;> simp [countReady, ih, Nat.add_right_comm]

theorem Barrier.register_ok_readyFired (b : Barrier) (given : Option String)
    (b' : Barrier) (i : String) (w : Watchdog)
    (h : b.register given = Except.ok (b', i, w)) :
    b'.readyFired = b.readyFired := by
  cases given with
  | none =>
    simp only [Barrier.register] at h
    split at h
    · simp at h
    · simp only [Except.ok.injEq, Prod.mk.injEq] at h
      obtain ⟨hb, -⟩ := h
      subst hb
      rfl
  | some i0 =>
    simp only [Barrier.register] at h
    split at h
    · simp at h
    · simp only [Except.ok.injEq, Prod.mk.injEq] at h
      obtain ⟨hb, -⟩ := h
      subst hb
      rfl

theorem Barrier.step_ready_accounting (b : Barrier) (a : BarrierAction) :
    countReady (b.step a).2 + (if b.readyFired then 1 else 0) =
      (if (b.step a).1.readyFired then 1 else 0) := by
  cases a with
  | register given =>
    cases hreg : b.register given with
    | ok r =>
      have hr := Barrier.register_ok_readyFired b given r.1 r.2.1 r.2.2 (by rw [hreg])
      simp [Barrier.step, hreg, countReady, hr]
    | error e => simp [Barrier.step, hreg, countReady]
  | complete id =>
    simp only [Barrier.step, Barrier.complete]
    split
    · split
      · rename_i hcond
        simp only [Bool.and_eq_true, Bool.not_eq_true'] at hcond
        simp [countReady, hcond.2]
      · simp [countReady]
    · simp [countReady]
  | fireTimeout id =>
    simp only [Barrier.step, Barrier.fireTimeout]
    split <;> simp [countReady]
  | loaderFinish =>
    simp only [Barrier.step, Barrier.loaderFinished]
    split
    · rename_i hcond
      simp only [Bool.and_eq_true, Bool.not_eq_true'] at hcond
      simp [countReady, hcond.2]
    · simp [countReady]

theorem Barrier.run_ready_accounting (b : Barrier) (acts : List BarrierAction) :
    countReady (b.run acts).2 + (if b.readyFired then 1 else 0) =
      (if (b.run acts).1.readyFired then 1 else 0) := by
  induction acts generalizing b with
  | nil => simp [Barrier.run, countReady]
  | cons a as ih =>
    simp only [Barrier.run, countReady_append]
    have h1 := Barrier.step_ready_accounting b a
    have h2 := ih (b.step a).1
    omega

/-- C3: over the lifetime of an `EggApplication` instance, the terminal
`ready` event is emitted at most once: for every interleaving of task
registrations, completions, watchdog firings, and the loader finishing,
the run of the instance's readiness barrier emits at most one `ready`
event. -/
theorem eggApplication_ready_at_most_once (acts : List BarrierAction) :
    countReady (initReadyBarrier.run acts).2 ≤ 1 := by
  have h := Barrier.run_ready_accounting initReadyBarrier acts
  have hfresh : initReadyBarrier.readyFired = false := rfl
  rw [hfresh] at h
  by_cases hr : (initReadyBarrier.run acts).1.readyFired = true <;>
    simp [hr] at h <;> omega

/-- C4: every task registered through the readiness barrier is given a
one-shot timeout watchdog whose delay is the barrier's configured value,
and the barrier `_initReady` mixes into the instance is constructed with
timeout 10 000 (`require('ready-callback')({ timeout: 10000 })`), so on
that barrier the watchdog delay is 10 000. -/
theorem register_watchdog_default_delay (b : Barrier) (given : Option String)
    (b' : Barrier) (i : String) (w : Watchdog)
    (h : b.register given = Except.ok (b', i, w)) :
    w.delay = b.timeout ∧ w.oneShot = true ∧
      initReadyBarrier.timeout = 10000 ∧ initReadyTimeout = 10000 := by
  refine ⟨?_, ?_, rfl, rfl⟩ <;>
  · cases given with
    | none =>
      simp only [Barrier.register] at h
      split at h
      · simp at h
      · simp only [Except.ok.injEq, Prod.mk.injEq] at h
        obtain ⟨-, -, hw⟩ := h
        subst hw
        rfl
    | some i0 =>
      simp only [Barrier.register] at h
      split at h
      · simp at h
      · simp only [Except.ok.injEq, Prod.mk.injEq] at h
        obtain ⟨-, -, hw⟩ := h
        subst hw
        rfl

/-- Concrete run of `register_watchdog_default_delay`: registering the id
`configclient` on the instance's fresh barrier starts a one-shot watchdog
with delay 10 000. -/
theorem register_watchdog_default_delay_witness :
    (Watchdog.mk "configclient" 10000 true).delay = initReadyBarrier.timeout ∧
      (Watchdog.mk "configclient" 10000 true).oneShot = true ∧
      initReadyBarrier.timeout = 10000 ∧ initReadyTimeout = 10000 :=
  register_watchdog_default_delay initReadyBarrier (some "configclient")
    { timeout := 10000, pending := [⟨"configclient", 0, false⟩], loaderDone := false,
      readyFired := false, nextGenId := 1, clock := 1 }
    "configclient" (Watchdog.mk "configclient" 10000 true) rfl

/-! ## Coordinator logging and the unhandled-rejection handler -/

/-- Logging levels of the coordinator's console logger. -/
inductive LogLevel where
  | info
  | warn
  | error
deriving Repr, DecidableEq

/-- An argument interpolated into a log message: a plain string (`%s`) or a
list of ids (`%j`). -/
inductive LogArg where
  | str (s : String)
  | ids (l : List String)
deriving Repr, DecidableEq

/-- One entry written through the console logger. -/
structure LogEntry where
  level : LogLevel
  message : String
  args : List LogArg
deriving Repr, DecidableEq

/-- Payload of the barrier's `ready_stat` event: the completed task id and
the snapshot of remaining pending ids. -/
structure ReadyStat where
  id : String
  remain : List String
deriving Repr, DecidableEq

/-- The `ready_stat` subscription installed by `_initReady` (egg.js lines
179–181): `this.console.info('[egg:core:ready_stat] end ready task %s,
remain %j', data.id, data.remain)`. -/
def onReadyStat (data : ReadyStat) : LogEntry :=
  { level := LogLevel.info,
    message := "[egg:core:ready_stat] end ready task %s, remain %j",
    args := [LogArg.str data.id, LogArg.ids data.remain] }

/-- The `ready_timeout` subscription installed by `_initReady` (egg.js
lines 181–183): `this.console.warn('[egg:core:ready_timeout] 10 seconds
later %s was still unable to finish.', id)`. -/
def onReadyTimeout (id : String) : LogEntry :=
  { level := LogLevel.warn,
    message := "[egg:core:ready_timeout] 10 seconds later %s was still unable to finish.",
    args := [LogArg.str id] }

/-- C8: the coordinator's `ready_stat` subscription logs at informational
level a message carrying the completed id and the remaining pending ids,
and its `ready_timeout` subscription logs at warning level a message
carrying the timed-out id and the configured watchdog delay — the delay
stated in the warning text ("10 seconds") is exactly the configured
10 000 ms timeout. -/
theorem initReady_observability (data : ReadyStat) (id : String) :
    (onReadyStat data).level = LogLevel.info ∧
    LogArg.str data.id ∈ (onReadyStat data).args ∧
    LogArg.ids data.remain ∈ (onReadyStat data).args ∧
    (onReadyTimeout id).level = LogLevel.warn ∧
    LogArg.str id ∈ (onReadyTimeout id).args ∧
    (onReadyTimeout id).message =
      "[egg:core:ready_timeout] " ++ toString (initReadyTimeout / 1000) ++
        " seconds later %s was still unable to finish." := by
  refine ⟨rfl, ?_, ?_, rfl, ?_, rfl⟩ <;> simp [onReadyStat, onReadyTimeout]

/-- An `Error` object as the handler sees it: a `name` and a `message`. -/
structure ErrObj where
  name : String
  message : String
deriving Repr, DecidableEq

/-- A value rejected asynchronously, as `err instanceof Error`
distinguishes it: an `Error` object, or any other value together with its
`String(v)` form. -/
inductive RejectionValue where
  | errObj (e : ErrObj)
  | nonError (stringForm : String)
deriving Repr, DecidableEq

/-- `_unhandledRejectionHandler(err)` (egg.js lines 186–194): wrap a
non-`Error` value into `new Error(String(err))` (whose name is `Error`),
rename a generic `Error` name to `unhandledRejectionError`, and log the
result through `coreLogger.error`.  Total: the handler itself never
throws. -/
def unhandledRejectionHandler (v : RejectionValue) : ErrObj :=
  let e := match v with
    | RejectionValue.errObj e => e
    | RejectionValue.nonError s => { name := "Error", message := s }
  if e.name = "Error" then { e with name := "unhandledRejectionError" } else e

/-- The handler as it acts on the whole coordinator: it writes one
error-level log entry and touches nothing else — in particular the
readiness barrier it runs alongside is passed through unchanged. -/
def handleUnhandledRejection (v : RejectionValue) (b : Barrier) :
    Barrier × LogLevel × ErrObj :=
  (b, LogLevel.error, unhandledRejectionHandler v)

/-- C5: for every rejected value the process-wide handler logs, at error
level, an `Error` whose name is never the bare generic `Error`; a
non-`Error` value is wrapped into an `Error` built from its string form
and carries the uniform name `unhandledRejectionError`; an `Error` keeps
its message, its name renamed to the uniform name exactly when it was the
generic one; and the readiness barrier's pending set is left unchanged. -/
theorem unhandledRejection_normalize_log (v : RejectionValue) (b : Barrier) :
    (handleUnhandledRejection v b).1 = b ∧
    (handleUnhandledRejection v b).2.1 = LogLevel.error ∧
    (handleUnhandledRejection v b).2.2.name ≠ "Error" ∧
    (∀ s, v = RejectionValue.nonError s →
      (handleUnhandledRejection v b).2.2 =
        { name := "unhandledRejectionError", message := s }) ∧
    (∀ e, v = RejectionValue.errObj e →
      (handleUnhandledRejection v b).2.2.message = e.message ∧
      (handleUnhandledRejection v b).2.2.name =
        (if e.name = "Error" then "unhandledRejectionError" else e.name)) := by
  refine ⟨rfl, rfl, ?_, ?_, ?_⟩
  · cases v with
    | errObj e =>
      by_cases he : e.name = "Error" <;>
        simp [handleUnhandledRejection, unhandledRejectionHandler, he]
    | nonError s => simp [handleUnhandledRejection, unhandledRejectionHandler]
  · intro s hv
    subst hv
    rfl
  · intro e hv
    subst hv
    by_cases he : e.name = "Error" <;>
      simp [handleUnhandledRejection, unhandledRejectionHandler, he]

/-- Concrete run of `unhandledRejection_normalize_log`: rejecting with the
plain string `oops` logs an error named `unhandledRejectionError` with
message `oops`, at error level, with the barrier untouched. -/
theorem unhandledRejection_normalize_log_witness :
    (handleUnhandledRejection (RejectionValue.nonError "oops") initReadyBarrier).1 =
        initReadyBarrier ∧
      (handleUnhandledRejection (RejectionValue.nonError "oops") initReadyBarrier).2.2 =
        { name := "unhandledRejectionError", message := "oops" } := by
  have h := unhandledRejection_normalize_log (RejectionValue.nonError "oops")
    initReadyBarrier
  exact ⟨h.1, h.2.2.2.1 "oops" rfl⟩

/-! ## EggApplication construction (egg.js lines 21–64) -/

/-- A JavaScript value as far as the constructor's option handling
distinguishes values: `undefined` (or an absent property), a string, or
any other value, of which only the truthiness matters here. -/
inductive JsVal where
  | undef
  | str (s : String)
  | other (truthy : Bool)
deriving Repr, DecidableEq

/-- JS truthiness: `undefined` is falsy, a string is falsy exactly when
empty, other values carry their truthiness. -/
def JsVal.isTruthy : JsVal → Bool
  | JsVal.undef => false
  | JsVal.str s => s != ""
  | JsVal.other t => t

/-- The options record the constructor receives: `baseDir` and `type`. -/
structure Options where
  baseDir : JsVal
  type : JsVal
deriving Repr, DecidableEq

/-- The file-system queries the constructor's assertions perform:
`fs.existsSync(baseDir)` and `fs.statSync(baseDir).isDirectory()`. -/
structure FileSystem where
  existsSync : String → Bool
  isDirectory : String → Bool

/-- A failed constructor assertion (spec §7: ConfigurationError), one per
`assert` in egg.js lines 26–29, in source order. -/
inductive ConfigError where
  | baseDirNotString
  | dirNotExists (d : String)
  | notADirectory (d : String)
  | invalidType
deriving Repr, DecidableEq

/-- `options = options || {}; options.baseDir = options.baseDir ||
process.cwd()` (egg.js lines 22–23): a missing options object becomes the
empty record, and a falsy `baseDir` is replaced by the working
directory. -/
def resolveOptions (cwd : String) (opts : Option Options) : Options :=
  let o := opts.getD { baseDir := JsVal.undef, type := JsVal.undef }
  { o with baseDir := if o.baseDir.isTruthy then o.baseDir else JsVal.str cwd }

/-- The four constructor assertions (egg.js lines 26–29), in source order:
`baseDir` must be a string naming an existing directory, and `type` must
be `application` or `agent`. -/
def validateOptions (fs : FileSystem) (o : Options) : Except ConfigError Options :=
  match o.baseDir with
  | JsVal.str d =>
    if fs.existsSync d then
      if fs.isDirectory d then
        if o.type = JsVal.str "application" ∨ o.type = JsVal.str "agent" then
          Except.ok o
        else Except.error ConfigError.invalidType
      else Except.error (ConfigError.notADirectory d)
    else Except.error (ConfigError.dirNotExists d)
  | _ => Except.error ConfigError.baseDirNotString

/-- The `unhandledRejection` listeners registered on the process, in
installation order, with a counter supplying the identity of the next
bound handler function. -/
structure ProcState where
  handlers : List Nat
  nextId : Nat
deriving Repr, DecidableEq

/-- All installed listeners were created earlier than the next identity. -/
def ProcState.WF (ps : ProcState) : Prop :=
  ∀ h ∈ ps.handlers, h < ps.nextId

/-- A constructed `EggApplication` instance: the validated `_options`, the
identity of the bound rejection handler the instance retains as
`this._unhandledRejectionHandler` (egg.js line 62), and the watchdog
delay `_initReady` configured. -/
structure EggApp where
  _options : Options
  handlerId : Nat
  readyTimeout : Nat
deriving Repr, DecidableEq

/-- `get type()` (egg.js lines 66–68). -/
def EggApp.type (a : EggApp) : JsVal := a._options.type

/-- `get baseDir()` (egg.js lines 75–77). -/
def EggApp.baseDir (a : EggApp) : JsVal := a._options.baseDir

/-- The `EggApplication` constructor (egg.js lines 21–64) over the ambient
world: default the options, run the four assertions, and on success build
the instance — mixing in the barrier with `_initReady`'s timeout and
installing the bound `unhandledRejection` handler on the process exactly
once (`process.on('unhandledRejection', ...)`, line 63). -/
def constructEggApplication (cwd : String) (fs : FileSystem)
    (opts : Option Options) (ps : ProcState) :
    Except ConfigError (EggApp × ProcState) :=
  match validateOptions fs (resolveOptions cwd opts) with
  | Except.error e => Except.error e
  | Except.ok o =>
    Except.ok
      ({ _options := o, handlerId := ps.nextId, readyTimeout := initReadyTimeout },
        { handlers := ps.handlers ++ [ps.nextId], nextId := ps.nextId + 1 })

/-- Teardown: `process.removeListener('unhandledRejection', h)` removes the
first occurrence of the exact listener reference. -/
def removeUnhandledRejectionListener (ps : ProcState) (h : Nat) : ProcState :=
  { ps with handlers := ps.handlers.erase h }

theorem validateOptions_ok_iff (fs : FileSystem) (o : Options) :
    ((validateOptions fs o).isOk = true) ↔
      ((∃ d, o.baseDir = JsVal.str d ∧ fs.existsSync d = true ∧
          fs.isDirectory d = true) ∧
        (o.type = JsVal.str "application" ∨ o.type = JsVal.str "agent")) := by
  cases hbd : o.baseDir with
  | undef => simp [validateOptions, hbd, Except.isOk, Except.toBool]
  | other t => simp [validateOptions, hbd, Except.isOk, Except.toBool]
  | str d =>
    simp only [validateOptions, hbd]
    split_ifs <;> simp_all [Except.isOk, Except.toBool]

theorem validateOptions_ok_eq (fs : FileSystem) (o o' : Options)
    (h : validateOptions fs o = Except.ok o') : o' = o := by
  unfold validateOptions at h
  cases hbd : o.baseDir with
  | undef => rw [hbd] at h; simp at h
  | other t => rw [hbd] at h; simp at h
  | str d =>
    rw [hbd] at h
    by_cases he : fs.existsSync d = true <;>
      by_cases hd : fs.isDirectory d = true <;>
      by_cases ht : (o.type = JsVal.str "application" ∨ o.type = JsVal.str "agent") <;>
      simp_all

/-- C7: construction fails synchronously, with a ConfigurationError and no
instance, exactly when the (defaulted) arguments are invalid — `baseDir`
not a string, `baseDir` not an existing directory, or `type` not
`application`/`agent` — and succeeds past these checks otherwise. -/
theorem eggApplication_construct_validation (cwd : String) (fs : FileSystem)
    (opts : Option Options) (ps : ProcState) :
    ((constructEggApplication cwd fs opts ps).isOk = true) ↔
      ((∃ d, (resolveOptions cwd opts).baseDir = JsVal.str d ∧
          fs.existsSync d = true ∧ fs.isDirectory d = true) ∧
        ((resolveOptions cwd opts).type = JsVal.str "application" ∨
         (resolveOptions cwd opts).type = JsVal.str "agent")) := by
  have h := validateOptions_ok_iff fs (resolveOptions cwd opts)
  cases hv : validateOptions fs (resolveOptions cwd opts) with
  | ok o =>
    rw [hv] at h
    simpa [constructEggApplication, hv, Except.isOk, Except.toBool] using h
  | error e =>
    rw [hv] at h
    simpa [constructEggApplication, hv, Except.isOk, Except.toBool] using h

/-- C6: constructing an `EggApplication` installs the process-wide
`unhandledRejection` handler exactly once — the process's listener list
grows by exactly the one bound handler the instance retains — and removing
that retained handler on teardown restores the previous listener list, so
repeated construction and teardown does not accumulate duplicate
handlers. -/
theorem eggApplication_handler_install_once (cwd : String) (fs : FileSystem)
    (opts : Option Options) (ps ps' : ProcState) (app : EggApp)
    (hwf : ps.WF)
    (h : constructEggApplication cwd fs opts ps = Except.ok (app, ps')) :
    ps'.handlers = ps.handlers ++ [app.handlerId] ∧
    app.handlerId ∉ ps.handlers ∧
    (removeUnhandledRejectionListener ps' app.handlerId).handlers = ps.handlers ∧
    ps'.WF := by
  cases hv : validateOptions fs (resolveOptions cwd opts) with
  | error e => simp [constructEggApplication, hv] at h
  | ok o =>
    simp only [constructEggApplication, hv, Except.ok.injEq, Prod.mk.injEq] at h
    obtain ⟨happ, hps⟩ := h
    have hid : app.handlerId = ps.nextId := by rw [← happ]
    have hnotmem : app.handlerId ∉ ps.handlers := by
      rw [hid]
      intro hmem
      exact absurd (hwf _ hmem) (lt_irrefl _)
    refine ⟨by rw [← hps, hid], hnotmem, ?_, ?_⟩
    · rw [removeUnhandledRejectionListener, ← hps]
      simp only [hid]
      rw [List.erase_append_right _ (by simpa [hid] using hnotmem)]
      simp
    · intro x hx
      rw [← hps] at hx ⊢
      simp only [List.mem_append, List.mem_singleton] at hx
      rcases hx with hx | hx
      · exact Nat.lt_succ_of_lt (hwf x hx)
      · simp [hx]

/-- Concrete run of `eggApplication_handler_install_once`: constructing on
a fresh process installs listener `0`, and removing it restores the empty
listener list. -/
theorem eggApplication_handler_install_once_witness :
    (ProcState.mk [0] 1).handlers = (ProcState.mk ([] : List Nat) 0).handlers ++ [0] ∧
      (0 : Nat) ∉ (ProcState.mk ([] : List Nat) 0).handlers ∧
      (removeUnhandledRejectionListener (ProcState.mk [0] 1) 0).handlers =
        (ProcState.mk ([] : List Nat) 0).handlers ∧
      (ProcState.mk [0] 1).WF := by
  have h := eggApplication_handler_install_once "/app"
    (FileSystem.mk (fun _ => true) (fun _ => true))
    (some (Options.mk (JsVal.str "/base") (JsVal.str "application")))
    (ProcState.mk [] 0) (ProcState.mk [0] 1)
    (EggApp.mk (Options.mk (JsVal.str "/base") (JsVal.str "application")) 0 10000)
    (fun x hx => absurd hx (List.not_mem_nil x)) rfl
  exact h

/-- C10: with no options object, or with an options object whose `baseDir`
is absent, the effective `baseDir` defaults to `process.cwd()` rather than
failing construction — the constructor behaves exactly as if `baseDir`
had been passed as the working directory, the subsequent validation
applies to that defaulted value, and the `baseDir` getter of a
successfully constructed instance returns the working directory. -/
theorem eggApplication_baseDir_defaults (cwd : String) (fs : FileSystem)
    (o : Options) (ps : ProcState)
    (habsent : o.baseDir = JsVal.undef) :
    (resolveOptions cwd none).baseDir = JsVal.str cwd ∧
    (resolveOptions cwd (some o)).baseDir = JsVal.str cwd ∧
    constructEggApplication cwd fs none ps =
      constructEggApplication cwd fs
        (some (Options.mk (JsVal.str cwd) JsVal.undef)) ps ∧
    constructEggApplication cwd fs (some o) ps =
      constructEggApplication cwd fs (some { o with baseDir := JsVal.str cwd }) ps ∧
    (∀ app ps', constructEggApplication cwd fs (some o) ps = Except.ok (app, ps') →
      app.baseDir = JsVal.str cwd) := by
  have hres : resolveOptions cwd (some o) =
      Options.mk (JsVal.str cwd) o.type := by
    simp [resolveOptions, habsent, JsVal.isTruthy]
  refine ⟨by simp [resolveOptions, JsVal.isTruthy], by rw [hres], ?_, ?_, ?_⟩
  · have : resolveOptions cwd (some (Options.mk (JsVal.str cwd) JsVal.undef)) =
        resolveOptions cwd none := by
      simp [resolveOptions, JsVal.isTruthy]
    rw [constructEggApplication, constructEggApplication, this]
  · have : resolveOptions cwd (some { o with baseDir := JsVal.str cwd }) =
        resolveOptions cwd (some o) := by
      rw [hres]
      simp [resolveOptions, JsVal.isTruthy]
    rw [constructEggApplication, constructEggApplication, this]
  · intro app ps' h
    cases hv : validateOptions fs (resolveOptions cwd (some o)) with
    | error e => simp [constructEggApplication, hv] at h
    | ok o' =>
      simp only [constructEggApplication, hv, Except.ok.injEq, Prod.mk.injEq] at h
      obtain ⟨happ, -⟩ := h
      have ho' : o' = resolveOptions cwd (some o) :=
        validateOptions_ok_eq fs _ o' hv
      rw [← happ]
      show o'.baseDir = JsVal.str cwd
      rw [ho', hres]

/-- Concrete run of `eggApplication_baseDir_defaults`: constructing with
`baseDir` absent and type `agent` on working directory `/cwd` yields an
instance whose `baseDir` getter returns `/cwd`. -/
theorem eggApplication_baseDir_defaults_witness :
    (EggApp.mk (Options.mk (JsVal.str "/cwd") (JsVal.str "agent")) 0 10000).baseDir =
      JsVal.str "/cwd" :=
  (eggApplication_baseDir_defaults "/cwd"
      (FileSystem.mk (fun _ => true) (fun _ => true))
      (Options.mk JsVal.undef (JsVal.str "agent")) (ProcState.mk [] 0) rfl).2.2.2.2
    (EggApp.mk (Options.mk (JsVal.str "/cwd") (JsVal.str "agent")) 0 10000)
    (ProcState.mk [0] 1) rfl
